import Mathlib

/-!
# Verification of the patient-directory SDK's local search cache

Shallow embedding of the core of the `eka-patient-directory-ts-sdk`
repository: the IndexedDB-backed local store (`src/services/indexeddb.ts`),
the data-loader sync engine (`DataLoaderService.syncAllPages` /
`loadAllData`), the sync worker guard (`workers/sync-worker.ts`), the
incremental create hook (`src/methods/patients.ts`) and the search router.

Strings are Lean `String`s (JS `toLowerCase` is modelled ASCII-wise by
`String.toLower`), epochs are `Nat`, optional JS fields are `Option`,
the IndexedDB object store is a `List` in storage iteration order, and
promise rejections are `Except`/sum results.

Naming note: a few embedded functions are renamed from their TypeScript
originals (`searchByPrefix` to `searchScan`, `partialUpdatePatient` to
`mergePartialPatient`, the regex test to `isAllDigits`); each definition's
doc comment states the source symbol and lines it embeds.
-/

namespace TrinitySDK

/-- `LocalMinifiedPatient` from `src/types.ts`: the cached projection of a
remote patient record stored in IndexedDB. Optional JS fields are `Option`. -/
structure LocalMinifiedPatient where
  oid : String
  u_ate : Nat
  fln : Option String
  mobile : Option String
  username : Option String
  deriving Repr, DecidableEq

/-- `MinifiedPatient` from `src/types.ts` (the remote minified projection
returned page-wise by `MinifiedMethods.getPage`). -/
structure MinifiedPatient where
  oid : String
  fln : Option String
  mobile : Option String
  email : Option String
  username : Option String
  gen : String
  dob : String
  arc : Option Bool
  deriving Repr, DecidableEq

/-- The regex test from `searchByPrefix`
(`src/services/indexeddb.ts`, line 108), deciding how the query is
classified: true iff the string is non-empty and consists entirely of
decimal digits. -/
def isAllDigits (p : String) : Bool :=
  decide (p.length > 0) && p.data.all Char.isDigit

/-- JS `s.startsWith(pre)`: the characters of `pre` lead those of `s`. -/
def jsStartsWith (s pre : String) : Bool :=
  pre.data.isPrefixOf s.data

/-- JS `s.toLowerCase()`, modelled character-wise (ASCII case map). -/
def jsToLower (s : String) : String :=
  ⟨s.data.map Char.toLower⟩

/-- JS optional chaining `s?.startsWith(pre)` on an optional field:
`undefined` is falsy. -/
def optStartsWith (s : Option String) (pre : String) : Bool :=
  match s with
  | some v => jsStartsWith v pre
  | none => false

/-- JS `s?.toLowerCase().startsWith(lowerPre)` on an optional field. -/
def optStartsWithCI (s : Option String) (lowerPre : String) : Bool :=
  match s with
  | some v => jsStartsWith (jsToLower v) lowerPre
  | none => false

/-- The per-record match decision inside the cursor loop of
`IndexedDBService.searchByPrefix` (`src/services/indexeddb.ts`,
lines 120-138). -/
def matchRecord (pre : String) (patient : LocalMinifiedPatient) : Bool :=
  let isNumeric := isAllDigits pre
  let lowerPre := jsToLower pre
  if isNumeric then
    optStartsWith patient.mobile pre || optStartsWithCI patient.username lowerPre
  else
    optStartsWithCI patient.fln lowerPre || optStartsWithCI patient.username lowerPre

/-- The cursor loop of `IndexedDBService.searchByPrefix`: each `onsuccess`
event first checks `cursor && results.length < limit`; while that holds it
pushes matching records and continues. `table` is the object store's
contents in storage iteration order, the second list the `results`
accumulator. -/
def searchLoop (pre : String) (limit : Nat) :
    List LocalMinifiedPatient → List LocalMinifiedPatient → List LocalMinifiedPatient
  | [], results => results
  | patient :: rest, results =>
    if results.length < limit then
      if matchRecord pre patient then
        searchLoop pre limit rest (results ++ [patient])
      else
        searchLoop pre limit rest results
    else
      results

/-- `IndexedDBService.searchByPrefix(prefix, limit)`
(`src/services/indexeddb.ts`, lines 104-152): the value the returned
promise resolves with. -/
def searchScan (table : List LocalMinifiedPatient) (pre : String)
    (limit : Nat) : List LocalMinifiedPatient :=
  searchLoop pre limit table []

/-! ## Local store: lookup, put, partial update -/

/-- The IndexedDB object store for one workspace, in storage iteration
order. -/
abbrev Store := List LocalMinifiedPatient

/-- `IndexedDBService.getByOid(oid)` (`src/services/indexeddb.ts`,
lines 157-168): `store.get(oid)` on the keyed object store, `null`
becoming `none`. -/
def getByOid (s : Store) (oid : String) : Option LocalMinifiedPatient :=
  s.find? (fun p => p.oid == oid)

/-- IndexedDB `store.put(p)` on a store whose `keyPath` is `oid`:
replaces any record with the same key, otherwise appends. -/
def putPatient (s : Store) (p : LocalMinifiedPatient) : Store :=
  if s.any (fun q => q.oid == p.oid) then
    s.map (fun q => if q.oid == p.oid then p else q)
  else
    s ++ [p]

/-- `Partial<LocalMinifiedPatient>` as used by `partialUpdatePatient`:
each field is either mentioned with a value (`some`) or absent (`none`). -/
structure PatientUpdates where
  oid : Option String
  u_ate : Option Nat
  fln : Option String
  mobile : Option String
  username : Option String
  deriving Repr, DecidableEq

/-- The merge `{...existingPatient, ...updates, oid}` from
`partialUpdatePatient` (`src/services/indexeddb.ts`, lines 206-211):
mentioned update fields win over the existing record, and the `oid`
key is forced to the lookup identifier last. -/
def mergePatient (existing : LocalMinifiedPatient) (u : PatientUpdates)
    (oid : String) : LocalMinifiedPatient :=
  { oid := oid
  , u_ate := u.u_ate.getD existing.u_ate
  , fln := match u.fln with | some v => some v | none => existing.fln
  , mobile := match u.mobile with | some v => some v | none => existing.mobile
  , username := match u.username with | some v => some v | none => existing.username }

/-- `IndexedDBService.partialUpdatePatient(oid, updates)`
(`src/services/indexeddb.ts`, lines 189-221): reads the existing record,
rejects with a not-found message if absent, otherwise merges and puts. -/
def mergePartialPatient (s : Store) (oid : String) (u : PatientUpdates) :
    Except String Store :=
  match getByOid s oid with
  | none => .error ("Patient with OID " ++ oid ++ " not found")
  | some existing => .ok (putPatient s (mergePatient existing u oid))

/-! ## Sync engine: `DataLoaderService.syncAllPages` -/

/-- `LoadProgress` from `src/services/data-loader.ts` (lines 315-319). -/
structure LoadProgress where
  progress : Nat
  total : Nat
  isComplete : Bool
  deriving Repr, DecidableEq

/-- Outcome of one `syncAllPages` run. `fuelOut` is an artifact of the
bounded-recursion embedding of the source's unbounded `while (true)`
loop and corresponds to no source behaviour. -/
inductive SyncResult where
  | ok
  | abortedRun
  | fuelOut
  deriving Repr, DecidableEq

/-- Observable trace of one `syncAllPages` run: the pages passed to
`getPage` in order, the argument of each `batchStore` call in order, the
`onProgress` payloads in order, and how the run ended. -/
structure SyncTrace where
  fetchedPages : List Nat
  batchStores : List (List LocalMinifiedPatient)
  progressReports : List LoadProgress
  result : SyncResult
  deriving Repr, DecidableEq

/-- The page-to-local conversion inside `syncAllPages`
(`src/services/data-loader.ts`, lines 444-450): `u_ate` is stamped with
the ingestion wall-clock time `now`. -/
def toLocal (now : Nat) (p : MinifiedPatient) : LocalMinifiedPatient :=
  { oid := p.oid, u_ate := now, fln := p.fln, mobile := p.mobile
  , username := p.username }

/-- The `while (true)` loop of `DataLoaderService.syncAllPages`
(`src/services/data-loader.ts`, lines 426-483), as fuel-bounded
recursion. `fetch k` is the page the remote collaborator returns for
1-based page `k`; `sig k` is whether the abort check at the top of the
iteration that would fetch page `k` observes a cancelled signal. The
arguments after `fuel` are the loop variables `page` and `totalLoaded`. -/
def syncLoop (fetch : Nat → List MinifiedPatient) (sig : Nat → Bool)
    (now limit : Nat) : Nat → Nat → Nat → SyncTrace
  | 0, _, _ => ⟨[], [], [], .fuelOut⟩
  | fuel + 1, page, totalLoaded =>
    if sig page then
      ⟨[], [], [], .abortedRun⟩
    else
      let patients := fetch page
      if patients.length = 0 then
        ⟨[page], [], [⟨totalLoaded, totalLoaded, true⟩], .ok⟩
      else
        let locals := patients.map (toLocal now)
        let t := totalLoaded + patients.length
        if patients.length < limit then
          ⟨[page], [locals], [⟨t, t, false⟩, ⟨t, t, true⟩], .ok⟩
        else
          let tr := syncLoop fetch sig now limit fuel (page + 1) t
          ⟨page :: tr.fetchedPages, locals :: tr.batchStores,
            ⟨t, t, false⟩ :: tr.progressReports, tr.result⟩

/-- `DataLoaderService.syncAllPages` run from its initial state
`page = 1`, `totalLoaded = 0`, `limit = 1000`. -/
def syncAllPages (fetch : Nat → List MinifiedPatient) (sig : Nat → Bool)
    (now fuel : Nat) : SyncTrace :=
  syncLoop fetch sig now 1000 fuel 1 0

/-- Sum of the lengths of `n` consecutive pages starting at page `page`:
the cumulative `totalLoaded` bookkeeping of the loop. -/
def cumLen (fetch : Nat → List MinifiedPatient) (page : Nat) : Nat → Nat
  | 0 => 0
  | n + 1 => (fetch page).length + cumLen fetch (page + 1) n

/-! ## Loader front end: `DataLoaderService.loadAllData` and the
`startSyncWithoutWorker` / worker wrappers -/

/-- What the caller of `loadAllData` observes: either the synchronous
busy rejection, normal completion, a propagated (rethrown) error
message, or the fuel artifact. -/
inductive LoadResult where
  | thrownBusy
  | completed
  | thrown (msg : String)
  | fuelOut
  deriving Repr, DecidableEq

/-- Invocations of the caller-supplied callbacks during one
`loadAllData` call: `onProgress` payloads in order, number of
`onComplete` calls, `onError` messages in order. -/
structure CallbackLog where
  progress : List LoadProgress
  completes : Nat
  errors : List String
  deriving Repr, DecidableEq

/-- The empty callback log. -/
def CallbackLog.empty : CallbackLog := ⟨[], 0, []⟩

/-- `DataLoaderService.loadAllData(callbacks)`
(`src/services/data-loader.ts`, lines 366-390): if `isLoading` it throws
the busy error before doing anything; otherwise it runs `syncAllPages`,
calls `onComplete` on success, and on failure calls `onError` with the
message and rethrows. Returns the caller-visible result, the callback
log, and the pages fetched by this call (empty when rejected busy). -/
def loadAllData (isLoading : Bool) (fetch : Nat → List MinifiedPatient)
    (sig : Nat → Bool) (now fuel : Nat) :
    LoadResult × CallbackLog × List Nat :=
  if isLoading then
    (.thrownBusy, CallbackLog.empty, [])
  else
    let tr := syncAllPages fetch sig now fuel
    match tr.result with
    | .ok => (.completed, ⟨tr.progressReports, 1, []⟩, tr.fetchedPages)
    | .abortedRun =>
        (.thrown "Data loading was aborted",
          ⟨tr.progressReports, 0, ["Data loading was aborted"]⟩,
          tr.fetchedPages)
    | .fuelOut => (.fuelOut, ⟨tr.progressReports, 0, []⟩, tr.fetchedPages)

/-- The busy message thrown by `loadAllData` (line 368). -/
def busyMsg : String := "Data loading is already in progress"

/-- `TrinityProfilesSDK.startSyncWithoutWorker(callbacks)`
(`src/index.ts`, lines 409-437): wraps `loadAllData`; its catch block
calls `onError` a second time with the message and rethrows. (The busy
rejection is an `Error` too, so it is also reported and rethrown.) -/
def startSyncWithoutWorker (isLoading : Bool)
    (fetch : Nat → List MinifiedPatient) (sig : Nat → Bool)
    (now fuel : Nat) : LoadResult × CallbackLog × List Nat :=
  let (res, log, pages) := loadAllData isLoading fetch sig now fuel
  match res with
  | .thrown m => (.thrown m, ⟨log.progress, log.completes, log.errors ++ [m]⟩, pages)
  | .thrownBusy =>
      (.thrownBusy, ⟨log.progress, log.completes, log.errors ++ [busyMsg]⟩, pages)
  | r => (r, log, pages)

/-- A message posted by the sync worker
(`src/workers/sync-worker.ts`). -/
inductive WorkerMsg where
  | progressMsg (p : LoadProgress)
  | completeMsg
  | errorMsg (m : String)
  deriving Repr, DecidableEq

/-- `SyncWorker.startSync(config)` (`src/workers/sync-worker.ts`,
lines 185-233): if `isRunning` it posts one busy error message and
returns without creating a loader; otherwise it sets `isRunning`, runs
`loadAllData` relaying callbacks as messages, posts a second error
message from its catch block when `loadAllData` rethrows, and finally
clears `isRunning`. Returns the posted messages, the pages fetched, and
the final `isRunning` flag. -/
def workerStartSync (isRunning : Bool) (fetch : Nat → List MinifiedPatient)
    (sig : Nat → Bool) (now fuel : Nat) :
    List WorkerMsg × List Nat × Bool :=
  if isRunning then
    ([.errorMsg "Sync already running"], [], true)
  else
    let (res, log, pages) := loadAllData false fetch sig now fuel
    let tail : List WorkerMsg :=
      match res with
      | .completed => [.completeMsg]
      | .thrown m => [.errorMsg m, .errorMsg m]
      | .thrownBusy => [.errorMsg busyMsg, .errorMsg busyMsg]
      | .fuelOut => []
    (log.progress.map .progressMsg ++ tail, pages, false)

/-! ## Incremental create hook: `PatientMethods.create` -/

/-- `CreatePatientData` from `src/types.ts`: the request payload of a
create call (fields not consumed anywhere in the modelled core are kept
for faithfulness). -/
structure CreatePatientData where
  gen : String
  dob : String
  fn : Option String
  mn : Option String
  ln : Option String
  fln : Option String
  ccd : Option String
  mobile : Option String
  email : Option String
  username : Option String
  s : Option String
  bg : Option String
  abha : Option String
  is_age : Option Bool
  deriving Repr, DecidableEq

/-- The create response body `response.data` as observed by
`PatientMethods.create` (`src/methods/patients.ts`): at runtime either a
full patient or just `{ oid }`; a field is `some` exactly when the JS
`in` test for that key succeeds. -/
structure CreateResponse where
  oid : String
  u_ate : Option Nat
  fln : Option String
  mobile : Option String
  username : Option String
  deriving Repr, DecidableEq

/-- The `LocalMinifiedPatient` built by `PatientMethods.create`
(`src/methods/patients.ts`, lines 282-288) and handed to the IndexedDB
update callback: each cached field prefers the response value when the
key is present on the response, else falls back to the request payload
(`u_ate` falls back to the ingestion time `now`, the payload carrying no
timestamp). -/
def buildLocalOnCreate (now : Nat) (data : CreatePatientData)
    (resp : CreateResponse) : LocalMinifiedPatient :=
  { oid := resp.oid
  , u_ate := resp.u_ate.getD now
  , fln := match resp.fln with | some v => some v | none => data.fln
  , mobile := match resp.mobile with | some v => some v | none => data.mobile
  , username := match resp.username with | some v => some v | none => data.username }

/-! ## Search router

The router (`SearchMethods`, `src/methods/search.ts`) is imported by
`src/index.ts` but its source file is absent from the repository
snapshot; it is modelled from the specification. -/

/-- Modelled from the spec: the error taxonomy the SearchRouter can fail
with (`src/methods/search.ts` is missing from the snapshot). -/
inductive SearchError where
  | requiredParameter
  | stillSyncing
  deriving Repr, DecidableEq

/-- Modelled from the spec: where a routed search is answered from. -/
inductive SearchOutcome where
  | localResults (rs : List LocalMinifiedPatient)
  | remoteQuery (pre : String) (limit : Nat)
  deriving Repr, DecidableEq

/-- Modelled from the spec: the SearchRouter configuration — a workspace
identifier and an enabled flag were supplied. -/
structure RouterConfig where
  workspaceId : Option String
  enableLocalSearch : Bool
  deriving Repr, DecidableEq

/-- Modelled from the spec: `SearchRouter.search(prefix, limit,
forceRemote)` (`src/methods/search.ts` is missing from the snapshot;
behaviour follows spec section 4.5): empty prefix is refused; a caller
forcing remote is routed remotely; with local search configured but sync
incomplete the call fails fast with a still-syncing condition; otherwise
the local table is scanned; unconfigured local search routes remotely. -/
def routerSearch (cfg : RouterConfig) (syncComplete : Bool) (table : Store)
    (pre : String) (limit : Nat) (forceRemote : Bool) :
    Except SearchError SearchOutcome :=
  if pre = "" then
    .error .requiredParameter
  else if forceRemote then
    .ok (.remoteQuery pre limit)
  else if cfg.workspaceId.isSome && cfg.enableLocalSearch then
    if syncComplete then
      .ok (.localResults (searchScan table pre limit))
    else
      .error .stillSyncing
  else
    .ok (.remoteQuery pre limit)

/-! ## Auxiliary values for stating and instantiating theorems -/

/-- Number of pages upserted when the loop runs pages `page .. page + n`
and terminates at page `page + n`: the final page is upserted exactly
when it is non-empty. -/
def numStoredPages (fetch : Nat → List MinifiedPatient) (page n : Nat) : Nat :=
  if (fetch (page + n)).length = 0 then n else n + 1

/-- A fixed remote minified record, used to instantiate theorems. -/
def dummyMin : MinifiedPatient :=
  { oid := "o", fln := some "John Doe", mobile := some "9812345"
  , email := none, username := some "jd", gen := "M", dob := "1990-01-01"
  , arc := none }

/-- A remote fetcher stub returning pages of sizes 1000, 1000, 400: the
pagination example from the specification. -/
def pages3Fetch (page : Nat) : List MinifiedPatient :=
  if page = 1 then List.replicate 1000 dummyMin
  else if page = 2 then List.replicate 1000 dummyMin
  else if page = 3 then List.replicate 400 dummyMin
  else []

/-- A concrete cached record, used to instantiate theorems. -/
def recJohn : LocalMinifiedPatient :=
  { oid := "a", u_ate := 0, fln := some "John Doe", mobile := some "9812345"
  , username := some "jd" }

/-- A second concrete cached record, used to instantiate theorems. -/
def recJane : LocalMinifiedPatient :=
  { oid := "b", u_ate := 1, fln := some "Jane Roe", mobile := some "1112223"
  , username := none }

/-- A concrete create request payload, used to instantiate theorems. -/
def dataReq : CreatePatientData :=
  { gen := "M", dob := "1990-01-01", fn := some "Req", mn := none
  , ln := some "Name", fln := some "Req Name", ccd := none
  , mobile := some "111", email := none, username := none, s := none
  , bg := none, abha := none, is_age := none }

/-- A concrete create response carrying only some fields, used to
instantiate theorems. -/
def respX : CreateResponse :=
  { oid := "x", u_ate := none, fln := none, mobile := some "222"
  , username := none }

/-! ## Lemmas about the search scan -/

/-- The cursor loop collects, after the accumulator, the first
`limit - |acc|` matches of the remaining table. -/
theorem searchLoop_eq (pre : String) (limit : Nat)
    (table : List LocalMinifiedPatient) :
    ∀ acc : List LocalMinifiedPatient,
      searchLoop pre limit table acc
        = acc ++ (table.filter (fun r => matchRecord pre r)).take (limit - acc.length) := by
  induction table with
  | nil => intro acc; simp [searchLoop]
  | cons patient rest ih =>
    intro acc
    rw [searchLoop]
    by_cases h : acc.length < limit
    · rw [if_pos h]
      by_cases hm : matchRecord pre patient = true
      · rw [if_pos hm, ih, List.filter_cons_of_pos (by simpa using hm)]
        have hlen : limit - acc.length = (limit - (acc.length + 1)) + 1 := by omega
        rw [hlen, List.take_succ_cons]
        simp
      · rw [if_neg hm, ih, List.filter_cons_of_neg (by simpa using hm)]
    · rw [if_neg h]
      have h0 : limit - acc.length = 0 := by omega
      simp [h0]

/-- `searchScan` is the first `limit` matches in iteration order. -/
theorem searchScan_eq (table : List LocalMinifiedPatient) (pre : String)
    (limit : Nat) :
    searchScan table pre limit
      = (table.filter (fun r => matchRecord pre r)).take limit := by
  simpa [searchScan] using searchLoop_eq pre limit table []

/-- The empty query is classified non-numeric and matches exactly the
records carrying a display name or a username. -/
theorem matchRecord_empty (r : LocalMinifiedPatient) :
    matchRecord "" r = (r.fln.isSome || r.username.isSome) := by
  cases hf : r.fln <;> cases hu : r.username <;>
    simp [matchRecord, isAllDigits, optStartsWithCI, jsStartsWith, jsToLower,
      hf, hu, List.isPrefixOf]

/-! ## Lemmas about the sync loop -/

/-- One step of the upserted-page count. -/
theorem numStoredPages_succ (fetch : Nat → List MinifiedPatient)
    (page n : Nat) :
    numStoredPages fetch page (n + 1) = numStoredPages fetch (page + 1) n + 1 := by
  have h : page + (n + 1) = (page + 1) + n := by omega
  simp only [numStoredPages, h]
  split <;> rfl

/-- A successful (uncancelled) run over `n` full pages followed by a
terminating page: full characterization of the trace. -/
theorem syncLoop_run (fetch : Nat → List MinifiedPatient) (now : Nat) :
    ∀ (n page t fuel : Nat),
      (∀ k, page ≤ k → k < page + n → 1000 ≤ (fetch k).length) →
      (fetch (page + n)).length < 1000 →
      n + 1 ≤ fuel →
      syncLoop fetch (fun _ => false) now 1000 fuel page t =
        { fetchedPages := List.range' page (n + 1)
        , batchStores := (List.range' page (numStoredPages fetch page n)).map
            (fun k => (fetch k).map (toLocal now))
        , progressReports :=
            ((List.range (numStoredPages fetch page n)).map
              (fun i => ⟨t + cumLen fetch page (i + 1),
                t + cumLen fetch page (i + 1), false⟩))
            ++ [⟨t + cumLen fetch page (n + 1),
                  t + cumLen fetch page (n + 1), true⟩]
        , result := .ok } := by
  intro n
  induction n with
  | zero =>
    intro page t fuel hfull hlast hfuel
    obtain ⟨f, rfl⟩ : ∃ f, fuel = f + 1 := ⟨fuel - 1, by omega⟩
    rw [Nat.add_zero] at hlast
    by_cases h0 : (fetch page).length = 0
    · simp [syncLoop, h0, numStoredPages, cumLen, List.range'_succ]
    · simp [syncLoop, h0, hlast, numStoredPages, cumLen, List.range'_succ,
        List.range_succ_eq_map]
  | succ n ih =>
    intro page t fuel hfull hlast hfuel
    obtain ⟨f, rfl⟩ : ∃ f, fuel = f + 1 := ⟨fuel - 1, by omega⟩
    have hpage : 1000 ≤ (fetch page).length :=
      hfull page (Nat.le_refl _) (by omega)
    have h0 : ¬ (fetch page).length = 0 := by omega
    have hlt : ¬ (fetch page).length < 1000 := by omega
    have hstep : page + (n + 1) = (page + 1) + n := by omega
    have ihh := ih (page + 1) (t + (fetch page).length) f
      (fun k hk1 hk2 => hfull k (by omega) (by omega))
      (by rw [hstep] at hlast; exact hlast) (by omega)
    simp only [syncLoop, Bool.false_eq_true, if_false, h0, hlt, ite_false,
      if_neg h0, if_neg hlt, ihh]
    rw [numStoredPages_succ]
    simp only [SyncTrace.mk.injEq]
    refine ⟨?_, ?_, ?_, trivial⟩
    · simp [List.range'_succ]
    · rw [List.range'_succ, List.map_cons]
    · conv_rhs => rw [List.range_succ_eq_map, List.map_cons, List.map_map]
      rw [List.cons_append]
      refine congrArg₂ List.cons ?_ (congrArg₂ HAppend.hAppend ?_ ?_)
      · simp [cumLen]
      · refine List.map_congr_left fun i hi => ?_
        simp [Function.comp, Nat.succ_eq_add_one, cumLen, Nat.add_assoc]
      · simp [cumLen, Nat.add_assoc]

/-- A run whose abort check first observes a cancelled signal at page
`page + n`, after `n` full pages: the trace keeps every committed page
and reports an aborted outcome. -/
theorem syncLoop_aborted (fetch : Nat → List MinifiedPatient)
    (sig : Nat → Bool) (now : Nat) :
    ∀ (n page t fuel : Nat),
      (∀ k, page ≤ k → k < page + n →
        sig k = false ∧ 1000 ≤ (fetch k).length) →
      sig (page + n) = true →
      n + 1 ≤ fuel →
      syncLoop fetch sig now 1000 fuel page t =
        { fetchedPages := List.range' page n
        , batchStores := (List.range' page n).map
            (fun k => (fetch k).map (toLocal now))
        , progressReports := (List.range n).map
            (fun i => ⟨t + cumLen fetch page (i + 1),
              t + cumLen fetch page (i + 1), false⟩)
        , result := .abortedRun } := by
  intro n
  induction n with
  | zero =>
    intro page t fuel hok hsig hfuel
    obtain ⟨f, rfl⟩ : ∃ f, fuel = f + 1 := ⟨fuel - 1, by omega⟩
    rw [Nat.add_zero] at hsig
    simp [syncLoop, hsig]
  | succ n ih =>
    intro page t fuel hok hsig hfuel
    obtain ⟨f, rfl⟩ : ∃ f, fuel = f + 1 := ⟨fuel - 1, by omega⟩
    obtain ⟨hsp, hpage⟩ := hok page (Nat.le_refl _) (by omega)
    have h0 : ¬ (fetch page).length = 0 := by omega
    have hlt : ¬ (fetch page).length < 1000 := by omega
    have hstep : page + (n + 1) = (page + 1) + n := by omega
    have ihh := ih (page + 1) (t + (fetch page).length) f
      (fun k hk1 hk2 => hok k (by omega) (by omega))
      (by rw [hstep] at hsig; exact hsig) (by omega)
    simp only [syncLoop, hsp, Bool.false_eq_true, if_false, if_neg h0,
      if_neg hlt, ihh]
    simp only [SyncTrace.mk.injEq]
    refine ⟨?_, ?_, ?_, trivial⟩
    · simp [List.range'_succ]
    · rw [List.range'_succ, List.map_cons]
    · conv_rhs => rw [List.range_succ_eq_map, List.map_cons, List.map_map]
      refine congrArg₂ List.cons ?_ ?_
      · simp [cumLen]
      · refine List.map_congr_left fun i hi => ?_
        simp [Function.comp, Nat.succ_eq_add_one, cumLen, Nat.add_assoc]

/-! ## Lemmas about the keyed store -/

/-- A successful keyed lookup returns a record bearing the looked-up key. -/
theorem getByOid_some_oid {s : Store} {oid : String}
    {r : LocalMinifiedPatient} (h : getByOid s oid = some r) : r.oid = oid := by
  have hr := List.find?_some h
  simpa using hr

/-- Replacing every entry keyed `k` by `p` (with `p` keyed `k`) makes the
lookup of `k` find `p` exactly when some entry was keyed `k`. -/
theorem find_replace (s : Store) (p : LocalMinifiedPatient) (k : String)
    (hp : p.oid = k) :
    (s.map (fun q => if q.oid == k then p else q)).find? (fun x => x.oid == k)
      = if s.any (fun q => q.oid == k) then some p else none := by
  induction s with
  | nil => simp
  | cons q rest ih =>
    simp only [List.map_cons, List.any_cons]
    by_cases hq : (q.oid == k) = true
    · rw [if_pos hq, List.find?_cons_of_pos _ (by simp [hp])]
      simp [hq]
    · rw [if_neg hq, List.find?_cons_of_neg _ (by simpa using hq), ih]
      simp only [Bool.or_eq_true]
      rw [if_congr (iff_of_eq (congrArg _ rfl)) rfl rfl]
      by_cases hrest : rest.any (fun q => q.oid == k) = true
      · rw [if_pos hrest, if_pos (Or.inr hrest)]
      · rw [if_neg hrest, if_neg (by simp [hq, hrest])]

/-- Replacing the entries keyed `k` leaves lookups of any other key
unchanged. -/
theorem find_replace_other (s : Store) (p : LocalMinifiedPatient)
    (k other : String) (hp : p.oid = k) (hne : other ≠ k) :
    (s.map (fun q => if q.oid == k then p else q)).find?
        (fun x => x.oid == other)
      = s.find? (fun x => x.oid == other) := by
  induction s with
  | nil => simp
  | cons q rest ih =>
    simp only [List.map_cons]
    by_cases hq : (q.oid == k) = true
    · have hqk : q.oid = k := by simpa using hq
      have h1 : (p.oid == other) = false := by
        rw [hp]
        exact beq_eq_false_iff_ne.mpr (Ne.symm hne)
      have h2 : (q.oid == other) = false := by
        rw [hqk]
        exact beq_eq_false_iff_ne.mpr (Ne.symm hne)
      rw [if_pos hq,
        @List.find?_cons_of_neg _ (fun x => x.oid == other) p
          (rest.map (fun q => if q.oid == k then p else q)) (by simp [h1]),
        ih,
        @List.find?_cons_of_neg _ (fun x => x.oid == other) q rest
          (by simp [h2])]
    · rw [if_neg hq]
      by_cases ho : (q.oid == other) = true
      · rw [@List.find?_cons_of_pos _ (fun x => x.oid == other) q
            (rest.map (fun q => if q.oid == k then p else q)) ho,
          @List.find?_cons_of_pos _ (fun x => x.oid == other) q rest ho]
      · rw [@List.find?_cons_of_neg _ (fun x => x.oid == other) q
            (rest.map (fun q => if q.oid == k then p else q))
            (by simpa using ho),
          ih,
          @List.find?_cons_of_neg _ (fun x => x.oid == other) q rest
            (by simpa using ho)]

/-- After a keyed `put`, looking up the put record's key finds it. -/
theorem getByOid_put_self (s : Store) (p : LocalMinifiedPatient) :
    getByOid (putPatient s p) p.oid = some p := by
  unfold putPatient getByOid
  by_cases h : s.any (fun q => q.oid == p.oid) = true
  · rw [if_pos h, find_replace s p p.oid rfl, if_pos h]
  · rw [if_neg h, List.find?_append]
    have hfind : s.find? (fun x => x.oid == p.oid) = none := by
      rw [List.find?_eq_none]
      intro x hx hcontra
      exact h (List.any_eq_true.mpr ⟨x, hx, hcontra⟩)
    rw [hfind]
    simp

/-- After a keyed `put`, lookups of every other key are unchanged. -/
theorem getByOid_put_other (s : Store) (p : LocalMinifiedPatient)
    (other : String) (hne : other ≠ p.oid) :
    getByOid (putPatient s p) other = getByOid s other := by
  unfold putPatient getByOid
  by_cases h : s.any (fun q => q.oid == p.oid) = true
  · rw [if_pos h, find_replace_other s p p.oid other rfl hne]
  · rw [if_neg h, List.find?_append]
    have hp : (p.oid == other) = false :=
      beq_eq_false_iff_ne.mpr fun hcontra => hne hcontra.symm
    have h1 : List.find? (fun x : LocalMinifiedPatient => x.oid == other) [p]
        = none := by
      rw [List.find?_eq_none]
      intro x hx
      rw [List.mem_singleton] at hx
      subst hx
      simp [hp]
    rw [h1]
    cases s.find? (fun x => x.oid == other) <;> rfl

/-! ## Claim theorems -/

/-- C1: for every record and non-empty query, an all-digit query matches
iff the record's mobile starts with the literal query or its username
starts with it case-insensitively; a query with any non-digit matches iff
the record's fln or username starts with it case-insensitively; and the
fields outside the active pair (and `oid`, `u_ate`) are never consulted. -/
theorem claim1_fieldPolicy (pre : String) (r : LocalMinifiedPatient)
    (hp : 0 < pre.length) :
    (pre.data.all Char.isDigit = true →
      matchRecord pre r
        = (optStartsWith r.mobile pre || optStartsWithCI r.username (jsToLower pre)))
    ∧ (pre.data.all Char.isDigit = false →
      matchRecord pre r
        = (optStartsWithCI r.fln (jsToLower pre)
            || optStartsWithCI r.username (jsToLower pre)))
    ∧ (∀ oid u_ate fln, pre.data.all Char.isDigit = true →
        matchRecord pre { r with oid := oid, u_ate := u_ate, fln := fln }
          = matchRecord pre r)
    ∧ (∀ oid u_ate mobile, pre.data.all Char.isDigit = false →
        matchRecord pre { r with oid := oid, u_ate := u_ate, mobile := mobile }
          = matchRecord pre r) := by
  have hd : isAllDigits pre = pre.data.all Char.isDigit := by
    simp [isAllDigits, hp]
  refine ⟨fun h => ?_, fun h => ?_, fun oid u_ate fln h => ?_,
    fun oid u_ate mobile h => ?_⟩ <;>
    simp [matchRecord, hd, h]

/-- C1 witness: the digit query "98" on a concrete record. -/
theorem claim1_fieldPolicy_witness :
    (0 < ("98" : String).length ∧ ("98" : String).data.all Char.isDigit = true)
    ∧ matchRecord "98" recJohn
        = (optStartsWith recJohn.mobile "98"
            || optStartsWithCI recJohn.username (jsToLower "98")) :=
  ⟨⟨by decide, by decide⟩,
    (claim1_fieldPolicy "98" recJohn (by decide)).1 (by decide)⟩

/-- C2: the scan returns exactly the first `limit` matches in storage
iteration order (a subsequence of the table, never more than `limit`
records, unsorted), and once `limit` matches are available in a front
segment the records beyond that segment are irrelevant. -/
theorem claim2_scanOrder (table : List LocalMinifiedPatient) (pre : String)
    (limit : Nat) :
    searchScan table pre limit
        = (table.filter (fun r => matchRecord pre r)).take limit
    ∧ (searchScan table pre limit).length ≤ limit
    ∧ (searchScan table pre limit).Sublist table
    ∧ ∀ rest : List LocalMinifiedPatient,
        limit ≤ (table.filter (fun r => matchRecord pre r)).length →
          searchScan (table ++ rest) pre limit = searchScan table pre limit := by
  have hmain := searchScan_eq table pre limit
  refine ⟨hmain, ?_, ?_, ?_⟩
  · rw [hmain, List.length_take]
    exact Nat.min_le_left _ _
  · rw [hmain]
    exact (List.take_sublist _ _).trans (List.filter_sublist _)
  · intro rest hlen
    rw [searchScan_eq (table ++ rest) pre limit, hmain, List.filter_append,
      List.take_append_of_le_length hlen]

/-- C2 witness: with `limit = 1` and one match already in the front
segment, appending further records does not change the result. -/
theorem claim2_scanOrder_witness :
    1 ≤ ([recJohn].filter (fun r => matchRecord "j" r)).length
    ∧ searchScan ([recJohn] ++ [recJane]) "j" 1 = searchScan [recJohn] "j" 1 :=
  ⟨by decide, (claim2_scanOrder [recJohn] "j" 1).2.2.2 [recJane] (by decide)⟩

/-- C3: an uncancelled sync run fetches 1-based pages in order and stops
at the first page that is empty (not upserted) or strictly short (upserted);
it performs one `batchStore` per non-empty fetched page in page order,
reports cumulative progress once per non-empty page with `total` equal to
`progress` and `isComplete` false, and ends with one final report with
`isComplete` true; `isComplete` is true only on that final report. -/
theorem claim3_pagination (fetch : Nat → List MinifiedPatient)
    (now fuel N : Nat) (hN : 1 ≤ N)
    (hfull : ∀ k, 1 ≤ k → k < N → 1000 ≤ (fetch k).length)
    (hlast : (fetch N).length < 1000) (hfuel : N ≤ fuel) :
    (syncAllPages fetch (fun _ => false) now fuel).fetchedPages
        = List.range' 1 N
    ∧ (syncAllPages fetch (fun _ => false) now fuel).batchStores
        = (List.range' 1 (if (fetch N).length = 0 then N - 1 else N)).map
            (fun k => (fetch k).map (toLocal now))
    ∧ (syncAllPages fetch (fun _ => false) now fuel).progressReports
        = ((List.range (if (fetch N).length = 0 then N - 1 else N)).map
            (fun i => ⟨cumLen fetch 1 (i + 1), cumLen fetch 1 (i + 1), false⟩))
          ++ [⟨cumLen fetch 1 N, cumLen fetch 1 N, true⟩]
    ∧ (∀ rep ∈ (syncAllPages fetch (fun _ => false) now fuel).progressReports,
        rep.total = rep.progress)
    ∧ (syncAllPages fetch (fun _ => false) now fuel).progressReports.getLast?
        = some ⟨cumLen fetch 1 N, cumLen fetch 1 N, true⟩
    ∧ (∀ rep ∈
        (syncAllPages fetch (fun _ => false) now fuel).progressReports.dropLast,
        rep.isComplete = false)
    ∧ (syncAllPages fetch (fun _ => false) now fuel).result = .ok := by
  have h1 : 1 + (N - 1) = N := by omega
  have hrun := syncLoop_run fetch now (N - 1) 1 0 fuel
    (fun k hk1 hk2 => hfull k hk1 (by omega))
    (by rw [h1]; exact hlast) (by omega)
  have hM : numStoredPages fetch 1 (N - 1)
      = if (fetch N).length = 0 then N - 1 else N := by
    simp only [numStoredPages, h1]
    split <;> omega
  have hN1 : N - 1 + 1 = N := by omega
  rw [hM, hN1] at hrun
  simp only [Nat.zero_add] at hrun
  simp only [syncAllPages, hrun]
  refine ⟨trivial, trivial, trivial, ?_, List.getLast?_concat _, ?_, trivial⟩
  · intro rep hrep
    rcases List.mem_append.mp hrep with h | h
    · obtain ⟨i, hi, rfl⟩ := List.mem_map.mp h
      rfl
    · simp only [List.mem_singleton] at h
      subst h
      rfl
  · intro rep hrep
    rw [List.dropLast_concat] at hrep
    obtain ⟨i, hi, rfl⟩ := List.mem_map.mp hrep
    rfl

/-- C3 witness: pages of sizes 1000, 1000, 400 cause exactly 3 fetches
and 3 batch upserts, with final cumulative progress 2400 and
`isComplete` true only on the final report. -/
theorem claim3_pagination_witness :
    ((pages3Fetch 3).length < 1000 ∧ (1 : Nat) ≤ 3)
    ∧ (syncAllPages pages3Fetch (fun _ => false) 7 3).fetchedPages.length = 3
    ∧ (syncAllPages pages3Fetch (fun _ => false) 7 3).batchStores.length = 3
    ∧ (syncAllPages pages3Fetch
        (fun _ => false) 7 3).progressReports.getLast?
        = some ⟨2400, 2400, true⟩ := by
  have e1 : pages3Fetch 1 = List.replicate 1000 dummyMin := rfl
  have e2 : pages3Fetch 2 = List.replicate 1000 dummyMin := rfl
  have e3 : pages3Fetch 3 = List.replicate 400 dummyMin := rfl
  have hfull : ∀ k, 1 ≤ k → k < 3 → 1000 ≤ (pages3Fetch k).length := by
    intro k hk1 hk2
    interval_cases k
    · rw [e1, List.length_replicate]
    · rw [e2, List.length_replicate]
  have hlast : (pages3Fetch 3).length < 1000 := by
    rw [e3, List.length_replicate]
    omega
  have h := claim3_pagination pages3Fetch 7 3 3 (by omega) hfull hlast
    (Nat.le_refl 3)
  have hne : ¬ (pages3Fetch 3).length = 0 := by
    rw [e3, List.length_replicate]
    omega
  refine ⟨⟨hlast, by omega⟩, ?_, ?_, ?_⟩
  · rw [h.1, List.length_range']
  · rw [h.2.1, if_neg hne, List.length_map, List.length_range']
  · rw [h.2.2.2.2.1]
    have hcum : cumLen pages3Fetch 1 3 = 2400 := by
      simp only [cumLen]
      rw [e1]
      rw [show (1 + 1 : Nat) = 2 from rfl, e2]
      rw [show (2 + 1 : Nat) = 3 from rfl, e3]
      norm_num [List.length_replicate]
    rw [hcum]

/-- C4: while a run is active, starting again is rejected immediately
with the busy condition — no callback fires, no page is fetched, and no
second run begins; the worker guard likewise answers a busy error
message and fetches nothing. -/
theorem claim4_singleFlight (fetch : Nat → List MinifiedPatient)
    (sig : Nat → Bool) (now fuel : Nat) :
    loadAllData true fetch sig now fuel
        = (.thrownBusy, CallbackLog.empty, [])
    ∧ (loadAllData true fetch sig now fuel).2.2 = []
    ∧ workerStartSync true fetch sig now fuel
        = ([.errorMsg "Sync already running"], [], true) :=
  ⟨rfl, rfl, rfl⟩

/-- C5: the abort signal is checked before each page fetch; with the
first cancelled check at page `P`, only the pages before `P` are ever
fetched (all with an uncancelled check), every one of their batches
stays committed, and the run ends aborted. -/
theorem claim5_cancellation (fetch : Nat → List MinifiedPatient)
    (sig : Nat → Bool) (now fuel P : Nat) (hP : 1 ≤ P)
    (hok : ∀ k, 1 ≤ k → k < P → sig k = false ∧ 1000 ≤ (fetch k).length)
    (hsig : sig P = true) (hfuel : P ≤ fuel) :
    (syncAllPages fetch sig now fuel).fetchedPages = List.range' 1 (P - 1)
    ∧ (∀ p ∈ (syncAllPages fetch sig now fuel).fetchedPages,
        p < P ∧ sig p = false)
    ∧ (∀ q, P ≤ q → q ∉ (syncAllPages fetch sig now fuel).fetchedPages)
    ∧ (syncAllPages fetch sig now fuel).batchStores
        = (List.range' 1 (P - 1)).map (fun k => (fetch k).map (toLocal now))
    ∧ (syncAllPages fetch sig now fuel).result = .abortedRun := by
  have h1 : 1 + (P - 1) = P := by omega
  have hrun := syncLoop_aborted fetch sig now (P - 1) 1 0 fuel
    (fun k hk1 hk2 => hok k hk1 (by omega))
    (by rw [h1]; exact hsig) (by omega)
  simp only [syncAllPages, hrun]
  refine ⟨trivial, ?_, ?_, trivial, trivial⟩
  · intro p hp
    rw [List.mem_range'_1] at hp
    exact ⟨by omega, (hok p hp.1 (by omega)).1⟩
  · intro q hq hmem
    rw [List.mem_range'_1] at hmem
    omega

/-- C5 witness: a signal cancelled from page 2 onwards stops the run
after page 1 with an aborted outcome. -/
theorem claim5_cancellation_witness :
    ((fun p : Nat => decide (2 ≤ p)) 2 = true ∧ (1 : Nat) ≤ 2)
    ∧ (syncAllPages pages3Fetch (fun p => decide (2 ≤ p)) 7 2).fetchedPages
        = List.range' 1 1
    ∧ (syncAllPages pages3Fetch (fun p => decide (2 ≤ p)) 7 2).result
        = .abortedRun := by
  have hok : ∀ k, 1 ≤ k → k < 2 →
      (fun p : Nat => decide (2 ≤ p)) k = false
        ∧ 1000 ≤ (pages3Fetch k).length := by
    intro k h1 h2
    interval_cases k
    refine ⟨by decide, ?_⟩
    rw [show pages3Fetch 1 = List.replicate 1000 dummyMin from rfl,
      List.length_replicate]
  have h := claim5_cancellation pages3Fetch (fun p => decide (2 ≤ p)) 7 2 2
    (by omega) hok (by decide) (Nat.le_refl 2)
  exact ⟨⟨by decide, by omega⟩, h.1, h.2.2.2.2⟩

/-- C6: a partial update of a stored record takes the mentioned fields
from the payload, keeps the identifier even against a differing payload
identifier, leaves unmentioned fields unchanged, leaves every other
record unchanged, and fails with a not-found condition when the
identifier is absent. -/
theorem claim6_partialMerge (s : Store) (oid : String) (u : PatientUpdates)
    (r : LocalMinifiedPatient) :
    (getByOid s oid = some r →
      mergePartialPatient s oid u = .ok (putPatient s (mergePatient r u oid))
      ∧ getByOid (putPatient s (mergePatient r u oid)) oid
          = some (mergePatient r u oid)
      ∧ (mergePatient r u oid).oid = r.oid
      ∧ (∀ v, u.fln = some v → (mergePatient r u oid).fln = some v)
      ∧ (u.fln = none → (mergePatient r u oid).fln = r.fln)
      ∧ (∀ v, u.mobile = some v → (mergePatient r u oid).mobile = some v)
      ∧ (u.mobile = none → (mergePatient r u oid).mobile = r.mobile)
      ∧ (∀ v, u.username = some v → (mergePatient r u oid).username = some v)
      ∧ (u.username = none → (mergePatient r u oid).username = r.username)
      ∧ (∀ v, u.u_ate = some v → (mergePatient r u oid).u_ate = v)
      ∧ (u.u_ate = none → (mergePatient r u oid).u_ate = r.u_ate)
      ∧ (∀ other, other ≠ oid →
          getByOid (putPatient s (mergePatient r u oid)) other
            = getByOid s other))
    ∧ (getByOid s oid = none →
        mergePartialPatient s oid u
          = .error ("Patient with OID " ++ oid ++ " not found")) := by
  constructor
  · intro h
    have hoid : r.oid = oid := getByOid_some_oid h
    have hmoid : (mergePatient r u oid).oid = oid := rfl
    refine ⟨?_, ?_, ?_, ?_, ?_, ?_, ?_, ?_, ?_, ?_, ?_, ?_⟩
    · rw [mergePartialPatient, h]
    · have := getByOid_put_self s (mergePatient r u oid)
      rw [hmoid] at this
      exact this
    · rw [hmoid, hoid]
    · intro v hv
      simp [mergePatient, hv]
    · intro hv
      simp [mergePatient, hv]
    · intro v hv
      simp [mergePatient, hv]
    · intro hv
      simp [mergePatient, hv]
    · intro v hv
      simp [mergePatient, hv]
    · intro hv
      simp [mergePatient, hv]
    · intro v hv
      simp [mergePatient, hv]
    · intro hv
      simp [mergePatient, hv]
    · intro other hother
      exact getByOid_put_other s (mergePatient r u oid) other
        (by rw [hmoid]; exact hother)
  · intro h
    rw [mergePartialPatient, h]

/-- C6 witness: updating the name of a stored record keeps its untouched
phone field and identifier. -/
theorem claim6_partialMerge_witness :
    getByOid [recJohn] "a" = some recJohn
    ∧ mergePartialPatient [recJohn] "a"
        ⟨none, none, some "Brandon", none, none⟩
      = .ok (putPatient [recJohn]
          (mergePatient recJohn ⟨none, none, some "Brandon", none, none⟩ "a"))
    ∧ (mergePatient recJohn ⟨none, none, some "Brandon", none, none⟩ "a").fln
        = some "Brandon"
    ∧ (mergePatient recJohn
        ⟨none, none, some "Brandon", none, none⟩ "a").mobile
        = recJohn.mobile := by
  have hget : getByOid [recJohn] "a" = some recJohn := by decide
  have h := (claim6_partialMerge [recJohn] "a"
    ⟨none, none, some "Brandon", none, none⟩ recJohn).1 hget
  exact ⟨hget, h.1, h.2.2.2.1 "Brandon" rfl, h.2.2.2.2.2.2.1 rfl⟩

/-- C10: the local store does not reject the empty query: it is
classified non-numeric, a record matches iff its fln or username is
present, and the scan returns the first `limit` such records in
iteration order; emptiness is refused only by the search router
(router modelled from the spec, its source being absent). -/
theorem claim10_emptyQuery (table : List LocalMinifiedPatient) (limit : Nat)
    (r : LocalMinifiedPatient) (cfg : RouterConfig) (syncComplete : Bool)
    (forceRemote : Bool) (limit2 : Nat) (s : Store) :
    matchRecord "" r = (r.fln.isSome || r.username.isSome)
    ∧ searchScan table "" limit
        = (table.filter (fun q => q.fln.isSome || q.username.isSome)).take limit
    ∧ routerSearch cfg syncComplete s "" limit2 forceRemote
        = .error .requiredParameter := by
  refine ⟨matchRecord_empty r, ?_, by simp [routerSearch]⟩
  rw [searchScan_eq]
  exact congrArg (List.take limit)
    (List.filter_congr (fun x _ => matchRecord_empty x))

/-- C7: with local search configured and sync incomplete, a non-empty,
non-forced query fails fast with the still-syncing condition; the same
query with `forceRemote` goes to the remote collaborator and is
independent of the local table. (Router modelled from the spec, its
source being absent from the snapshot.) -/
theorem claim7_syncGate (cfg : RouterConfig) (table other : Store)
    (pre : String) (limit : Nat) (syncComplete : Bool) (hpre : pre ≠ "")
    (hcfg : cfg.workspaceId.isSome = true ∧ cfg.enableLocalSearch = true) :
    routerSearch cfg false table pre limit false = .error .stillSyncing
    ∧ routerSearch cfg syncComplete table pre limit true
        = .ok (.remoteQuery pre limit)
    ∧ routerSearch cfg syncComplete other pre limit true
        = routerSearch cfg syncComplete table pre limit true := by
  obtain ⟨h1, h2⟩ := hcfg
  refine ⟨?_, ?_, ?_⟩ <;> simp [routerSearch, hpre, h1, h2]

/-- C7 witness: the query "john" before sync completion. -/
theorem claim7_syncGate_witness :
    (("john" : String) ≠ ""
      ∧ (RouterConfig.mk (some "w") true).workspaceId.isSome = true
      ∧ (RouterConfig.mk (some "w") true).enableLocalSearch = true)
    ∧ routerSearch ⟨some "w", true⟩ false [] "john" 10 false
        = .error .stillSyncing
    ∧ routerSearch ⟨some "w", true⟩ false [] "john" 10 true
        = .ok (.remoteQuery "john" 10) := by
  have h := claim7_syncGate ⟨some "w", true⟩ [] [recJohn] "john" 10 false
    (by decide) ⟨rfl, rfl⟩
  exact ⟨⟨by decide, rfl, rfl⟩, h.1, h.2.1⟩

/-- C8 counterexample: a failing (aborted) run started through
`loadAllData`, respectively `startSyncWithoutWorker`, invokes `onError`
with the failure message AND rethrows the error to the caller of the
start operation (twice invoking `onError` in the wrapper path), refuting
the claim that the failure is surfaced only through the callback. -/
theorem claim8_counterexample :
    (loadAllData false (fun _ => []) (fun _ => true) 0 5).1
        = .thrown "Data loading was aborted"
    ∧ (loadAllData false (fun _ => []) (fun _ => true) 0 5).2.1.errors
        = ["Data loading was aborted"]
    ∧ (startSyncWithoutWorker false (fun _ => []) (fun _ => true) 0 5).1
        = .thrown "Data loading was aborted"
    ∧ (startSyncWithoutWorker false
        (fun _ => []) (fun _ => true) 0 5).2.1.errors
        = ["Data loading was aborted", "Data loading was aborted"] :=
  ⟨rfl, rfl, rfl, rfl⟩

/-- C8 amended: a failure during a background run is surfaced through
the `onError` callback and, in the direct (non-worker) path, is
additionally rethrown to the caller of the start operation — `onError`
firing once in `loadAllData` and a second time in
`startSyncWithoutWorker`; only the worker path confines the failure to
messages and returns normally. -/
theorem claim8_amended (fetch : Nat → List MinifiedPatient)
    (sig : Nat → Bool) (now fuel : Nat)
    (h : (syncAllPages fetch sig now fuel).result = .abortedRun) :
    (loadAllData false fetch sig now fuel).1
        = .thrown "Data loading was aborted"
    ∧ (loadAllData false fetch sig now fuel).2.1.errors
        = ["Data loading was aborted"]
    ∧ (startSyncWithoutWorker false fetch sig now fuel).1
        = .thrown "Data loading was aborted"
    ∧ (startSyncWithoutWorker false fetch sig now fuel).2.1.errors
        = ["Data loading was aborted", "Data loading was aborted"]
    ∧ (workerStartSync false fetch sig now fuel).1
        = (syncAllPages fetch sig now fuel).progressReports.map .progressMsg
          ++ [.errorMsg "Data loading was aborted",
              .errorMsg "Data loading was aborted"]
    ∧ (workerStartSync false fetch sig now fuel).2.2 = false := by
  have hl : loadAllData false fetch sig now fuel
      = (.thrown "Data loading was aborted",
          ⟨(syncAllPages fetch sig now fuel).progressReports, 0,
            ["Data loading was aborted"]⟩,
          (syncAllPages fetch sig now fuel).fetchedPages) := by
    simp [loadAllData, h]
  refine ⟨by rw [hl], by rw [hl], ?_, ?_, ?_, ?_⟩
  · simp [startSyncWithoutWorker, hl]
  · simp [startSyncWithoutWorker, hl]
  · simp [workerStartSync, hl]
  · simp [workerStartSync, hl]

/-- C8 amended witness: a signal cancelled from the very first check. -/
theorem claim8_amended_witness :
    (syncAllPages (fun _ => ([] : List MinifiedPatient))
        (fun _ => true) 0 5).result = .abortedRun
    ∧ (loadAllData false (fun _ => ([] : List MinifiedPatient))
        (fun _ => true) 0 5).2.1.errors = ["Data loading was aborted"] := by
  have h : (syncAllPages (fun _ => ([] : List MinifiedPatient))
      (fun _ => true) 0 5).result = .abortedRun := rfl
  exact ⟨h, (claim8_amended _ _ 0 5 h).2.1⟩

/-- C9: the cached record written after a successful create takes each
field from the remote response when the response carries it, and falls
back to the request payload for omitted fields (the timestamp falling
back to the ingestion time, the create payload carrying none). -/
theorem claim9_createCache (now : Nat) (data : CreatePatientData)
    (resp : CreateResponse) :
    (buildLocalOnCreate now data resp).oid = resp.oid
    ∧ (∀ v, resp.fln = some v →
        (buildLocalOnCreate now data resp).fln = some v)
    ∧ (resp.fln = none →
        (buildLocalOnCreate now data resp).fln = data.fln)
    ∧ (∀ v, resp.mobile = some v →
        (buildLocalOnCreate now data resp).mobile = some v)
    ∧ (resp.mobile = none →
        (buildLocalOnCreate now data resp).mobile = data.mobile)
    ∧ (∀ v, resp.username = some v →
        (buildLocalOnCreate now data resp).username = some v)
    ∧ (resp.username = none →
        (buildLocalOnCreate now data resp).username = data.username)
    ∧ (∀ t, resp.u_ate = some t →
        (buildLocalOnCreate now data resp).u_ate = t)
    ∧ (resp.u_ate = none →
        (buildLocalOnCreate now data resp).u_ate = now) := by
  refine ⟨rfl, fun v hv => ?_, fun hv => ?_, fun v hv => ?_, fun hv => ?_,
    fun v hv => ?_, fun hv => ?_, fun t ht => ?_, fun hv => ?_⟩ <;>
    simp [buildLocalOnCreate, *]

/-- C9 witness: a response carrying only `oid` and `mobile`; the cached
name falls back to the request payload, the cached mobile comes from the
response. -/
theorem claim9_createCache_witness :
    (respX.fln = none ∧ respX.mobile = some "222")
    ∧ (buildLocalOnCreate 9 dataReq respX).fln = dataReq.fln
    ∧ (buildLocalOnCreate 9 dataReq respX).mobile = some "222" := by
  have h := claim9_createCache 9 dataReq respX
  exact ⟨⟨rfl, rfl⟩, h.2.2.1 rfl, h.2.2.2.1 "222" rfl⟩

end TrinitySDK
